import Mathlib

/-!
Verification development for the SteamGrid overlay pipeline.

The definitions below are a shallow embedding of `src/main.py`
(`SteamGridOverlayApp`): the queue mutations, the two remote-service
clients, the overlay compositor, the console registry, the output-file
write, and the per-run orchestration.  External effects (HTTP responses,
the filesystem, PIL image operations) are made explicit as data so that
the control flow of the Python source is captured exactly.
-/

/-- Model of Python `str.strip()`: drop whitespace from both ends. -/
def pyStrip (s : String) : String :=
  String.mk (((s.data.dropWhile Char.isWhitespace).reverse.dropWhile
    Char.isWhitespace).reverse)

/-! ## Queue operations (`add_game`, `remove_game`, `clear_queue`) -/

/-- Embedding of `add_game`: strip the text-field contents and append to
the queue when non-empty. -/
def add_game (q : List String) (raw : String) : List String :=
  let game_name := pyStrip raw
  if game_name = "" then q else q ++ [game_name]

/-- Embedding of `remove_game`'s queue mutation: Python's
`list.remove` deletes the first occurrence; the source guards with an
`in` test so an absent name is a no-op. -/
def remove_game (q : List String) (name : String) : List String :=
  if name ∈ q then q.erase name else q

/-- Embedding of `remove_game` as invoked from a queue row's button: the
widget (modelled by its row index) is ignored by the queue mutation,
which only receives the name. -/
def remove_game_click (q : List String) (_widget : Nat) (name : String) : List String :=
  remove_game q name

/-- Embedding of `clear_queue`: the queue is replaced by an empty list. -/
def clear_queue (_q : List String) : List String := []

/-- A user-level queue operation. -/
inductive QueueOp where
  | add (raw : String)
  | remove (name : String)
  | clear
deriving DecidableEq

/-- One step of the queue state machine. -/
def queueStep (q : List String) : QueueOp → List String
  | QueueOp.add raw => add_game q raw
  | QueueOp.remove n => remove_game q n
  | QueueOp.clear => clear_queue q

/-- The queue after a sequence of operations, starting empty. -/
def runQueue (ops : List QueueOp) : List String :=
  ops.foldl queueStep []

/-- Accumulate the names added (and accepted) by `add` operations since
the most recent `clear`, ignoring removals. -/
def addStep (acc : List String) : QueueOp → List String
  | QueueOp.add raw => add_game acc raw
  | QueueOp.remove _ => acc
  | QueueOp.clear => []

/-- All names contributed by still-relevant `add` operations, in their
original relative order. -/
def addedNames (ops : List QueueOp) : List String :=
  ops.foldl addStep []

/-! ## Remote-service clients (`search_game`, `get_game_icons`) -/

/-- A game record as returned by the autocomplete endpoint. -/
structure GameRec where
  id : Nat
  name : String
deriving DecidableEq

/-- An icon candidate as returned by the grids endpoint. -/
structure IconCandidate where
  url : String
  width : Nat
  height : Nat
deriving DecidableEq

/-- Outcome of one HTTP GET, as observed by the Python clients: a
transport error (exception from `requests.get`), or a response with a
status code and a payload.  `none` as payload models a body whose JSON
decoding raises; a decoded body contributes the `data` list (a body
whose JSON lacks the `data` key behaves as `some []` via the `.get`
default). -/
inductive HttpOutcome (α : Type) where
  | transportError
  | response (status : Nat) (payload : Option α)
deriving DecidableEq

/-- Embedding of `search_game`: `raise_for_status` raises for status
codes 400 and above, and the bare `except` collapses every failure to
an empty list. -/
def search_game (resp : HttpOutcome (List GameRec)) : List GameRec :=
  match resp with
  | HttpOutcome.transportError => []
  | HttpOutcome.response status payload =>
    if 400 ≤ status then []
    else
      match payload with
      | none => []
      | some l => l

/-- Embedding of `get_game_icons`: same failure handling as
`search_game`, plus the local filter keeping only 1024x1024 grids. -/
def get_game_icons (resp : HttpOutcome (List IconCandidate)) : List IconCandidate :=
  match resp with
  | HttpOutcome.transportError => []
  | HttpOutcome.response status payload =>
    if 400 ≤ status then []
    else
      match payload with
      | none => []
      | some grids => grids.filter (fun g => g.width == 1024 && g.height == 1024)

/-! ## Search request construction -/

/-- The constant part of the autocomplete URL in `search_game`. -/
def autocompleteBase : String :=
  "https://www.steamgriddb.com/api/v2/search/autocomplete/"

/-- Embedding of the URL built by `search_game`: plain f-string
interpolation of the game name after the constant base. -/
def search_url (game_name : String) : String :=
  autocompleteBase ++ game_name

/-- Embedding of the `Authorization` header value built by
`search_game` and `get_game_icons`. -/
def authorization_value (apiKeyText : String) : String :=
  "Bearer " ++ pyStrip apiKeyText

/-- Hexadecimal digit character for a value below 16. -/
def hexDigitChar (n : Nat) : Char :=
  if n < 10 then Char.ofNat (48 + n) else Char.ofNat (55 + n)

/-- RFC 3986 unreserved characters, which a path-segment encoder leaves
as-is. -/
def isUnreservedChar (c : Char) : Bool :=
  c.isAlphanum || c = '-' || c = '.' || c = '_' || c = '~'

/-- Percent-encode one character (single-byte model). -/
def percentEncodeChar (c : Char) : List Char :=
  ['%', hexDigitChar (c.toNat / 16 % 16), hexDigitChar (c.toNat % 16)]

/-- Spec-side definition, for comparison with `search_url`: the spec's
phrase "URL-path-segment encoded" means percent-encoding every
character that is not unreserved, so that the name stays inside one
path segment. -/
def encodeSegmentSpec (s : String) : String :=
  String.mk (s.data.flatMap
    (fun c => if isUnreservedChar c then [c] else percentEncodeChar c))

/-- Spec-side URL: the base followed by the path-segment-encoded name. -/
def search_url_spec (game_name : String) : String :=
  autocompleteBase ++ encodeSegmentSpec game_name

/-- The final path segment of a URL, as a character list: everything
after the last slash. -/
def lastSegmentChars (l : List Char) : List Char :=
  (l.reverse.takeWhile (fun c => c != '/')).reverse

/-! ## Console registry (`get_available_consoles`) -/

/-- One immediate child of the overlays root, with the two facts the
scan inspects: whether it is a directory and whether it contains
`overlay.png`. -/
structure DirEntry where
  name : String
  isDir : Bool
  hasOverlayPng : Bool
deriving DecidableEq

/-- The qualifying subdirectory names, in directory-iteration order. -/
def overlay_subdirs (entries : List DirEntry) : List String :=
  (entries.filter (fun e => e.isDir && e.hasOverlayPng)).map DirEntry.name

/-- Embedding of `get_available_consoles`.  `none` models a missing or
unreadable overlays root (the `exists()` test failing, or the scan
raising into the `except` handler); `some entries` models a readable
root with the given immediate children. -/
def get_available_consoles (root : Option (List DirEntry)) : List String :=
  match root with
  | none => ["No consoles found"]
  | some entries =>
    let consoles := overlay_subdirs entries
    if consoles.isEmpty then ["No consoles found"]
    else consoles.mergeSort (fun a b => decide (a ≤ b))

/-! ## Image model and the overlay compositor (`apply_overlay`) -/

/-- An RGBA bitmap: a width, a height, and a pixel function returning
(red, green, blue, alpha), each channel in 0..255. -/
structure Img where
  w : Nat
  h : Nat
  px : Nat → Nat → Nat × Nat × Nat × Nat

/-- Squaring, used by the rounded-corner test. -/
def sqr (n : Nat) : Nat := n * n

/-- Model of PIL `ImageDraw.rounded_rectangle` on the bounding box
[(0,0),(w,h)] with corner radius `r`: a point is inside the filled
region unless it lies in one of the four corner squares farther than
`r` from that corner's arc center. -/
def inRoundedRect (r w h x y : Nat) : Bool :=
  decide (x ≤ w) && decide (y ≤ h) &&
  !(decide (x < r) && decide (y < r) &&
    decide (sqr r < sqr (r - x) + sqr (r - y))) &&
  !(decide (w - r < x) && decide (y < r) &&
    decide (sqr r < sqr (x - (w - r)) + sqr (r - y))) &&
  !(decide (x < r) && decide (h - r < y) &&
    decide (sqr r < sqr (r - x) + sqr (y - (h - r)))) &&
  !(decide (w - r < x) && decide (h - r < y) &&
    decide (sqr r < sqr (x - (w - r)) + sqr (y - (h - r))))

/-- The single-channel mask drawn by `apply_overlay`: a new `L` image of
the base's size initialized to 0, with the filled rounded rectangle
drawn at 255. -/
def roundedMask (r w h : Nat) : Nat → Nat → Nat :=
  fun x y => if inRoundedRect r w h x y then 255 else 0

/-- Embedding of PIL `putalpha`: replace the alpha channel with the
given single-channel mask, keeping the color channels. -/
def putalpha (base : Img) (mask : Nat → Nat → Nat) : Img :=
  Img.mk base.w base.h
    (fun x y =>
      let p := base.px x y
      (p.1, p.2.1, p.2.2.1, mask x y))

/-- Integer model of the Porter-Duff source-over blend used by PIL
`Image.alpha_composite` for one pixel, top over bottom. -/
def overPixel (top bot : Nat × Nat × Nat × Nat) : Nat × Nat × Nat × Nat :=
  let ta := top.2.2.2
  let ba := bot.2.2.2
  let outA := ta + ba * (255 - ta) / 255
  let blend := fun (tc bc : Nat) =>
    if outA = 0 then 0 else (tc * ta + bc * ba * (255 - ta) / 255) / outA
  (blend top.1 bot.1, blend top.2.1 bot.2.1, blend top.2.2.1 bot.2.2.1, outA)

/-- Embedding of PIL `Image.alpha_composite bot top`: pixelwise
source-over of the top image onto the bottom image, at the bottom
image's dimensions. -/
def alpha_composite (bot top : Img) : Img :=
  Img.mk bot.w bot.h (fun x y => overPixel (top.px x y) (bot.px x y))

/-- Embedding of `apply_overlay`.  `resample` stands for PIL
`Image.resize` with the LANCZOS filter (its floating-point pixel
arithmetic is left abstract; only the produced dimensions matter).
`overlayAsset` is the decoded RGBA frame, or `none` when
`overlay.png` is absent, which the source reports as failure. -/
def apply_overlay (resample : Img → Nat → Nat → Img)
    (overlayAsset : Option Img) (base : Img) : Option Img :=
  match overlayAsset with
  | none => none
  | some ov =>
    let ov2 := if ov.w = base.w ∧ ov.h = base.h then ov else resample ov base.w base.h
    let mask := roundedMask 120 base.w base.h
    let base2 := putalpha base mask
    some (alpha_composite base2 ov2)

/-! ## Output write (`process_single_game`, saving step) -/

/-- The output file path built by `process_single_game`:
`<output_root>/<console>/<resolved name>.png`. -/
def output_path (outputRoot console name : String) : String :=
  outputRoot ++ "/" ++ console ++ "/" ++ name ++ ".png"

/-- A filesystem snapshot: the set of existing directories and the file
contents by path. -/
structure FS where
  dirs : List String
  files : String → Option Img

/-- All ancestor prefixes of a slash-separated path, shortest first. -/
def pathPrefixes (p : String) : List String :=
  (List.range (p.splitOn "/").length).map
    (fun i => String.intercalate "/" ((p.splitOn "/").take (i + 1)))

/-- Embedding of `Path.mkdir(parents=True, exist_ok=True)`: every
missing ancestor of the directory is created; existing directories are
left alone and cause no error. -/
def mkdir_parents (fs : FS) (dir : String) : FS :=
  FS.mk (fs.dirs ++ (pathPrefixes dir).filter (fun d => decide (¬ d ∈ fs.dirs)))
    fs.files

/-- Embedding of the saving step of `process_single_game`: create the
per-console directory recursively, then write the composited image at
the output path, overwriting any existing file there. -/
def save_output (fs : FS) (outputRoot console name : String) (img : Img) : FS :=
  let dir := outputRoot ++ "/" ++ console
  let fs1 := mkdir_parents fs dir
  let path := output_path outputRoot console name
  FS.mk fs1.dirs (fun q => if q = path then some img else fs1.files q)

/-! ## Pipeline orchestration (`process_games`, `process_single_game`) -/

/-- External effects available to one item's processing.  Each step is
a call that can either return a value or raise (`Except.error`),
mirroring what the `try` block of `process_single_game` wraps:
`search_game`, `get_game_icons`, `download_image` (returning `none` on
failure), `apply_overlay` (returning `none` on failure), and the
mkdir-and-save step. -/
structure PipelineEnv where
  search : String → Except String (List GameRec)
  icons : Nat → Except String (List IconCandidate)
  download : String → Except String (Option Img)
  overlay : Img → Except String (Option Img)
  saveFile : String → Img → Except String Unit

/-- The per-item outcome recorded in the log. -/
inductive RunResult where
  | Saved (path : String)
  | NotFound
  | NoIconsAvailable
  | DownloadFailed
  | OverlayFailed
  | Error (msg : String)
deriving DecidableEq

/-- The body of `process_single_game`'s `try` block: early returns for
empty results and step failures, then the directory creation and save. -/
def processBody (env : PipelineEnv) (outputRoot console name : String) :
    Except String RunResult := do
  let results ← env.search name
  match results with
  | [] => pure RunResult.NotFound
  | game :: _ => do
    let icons ← env.icons game.id
    match icons with
    | [] => pure RunResult.NoIconsAvailable
    | icon :: _ => do
      let imgOpt ← env.download icon.url
      match imgOpt with
      | none => pure RunResult.DownloadFailed
      | some img => do
        let resOpt ← env.overlay img
        match resOpt with
        | none => pure RunResult.OverlayFailed
        | some res => do
          let path := output_path outputRoot console game.name
          let _ ← env.saveFile path res
          pure (RunResult.Saved path)

/-- Embedding of `process_single_game`: the `try`/`except` wrapper
turns any raised exception into a logged per-item `Error` result. -/
def process_single_game (env : PipelineEnv) (outputRoot console name : String) :
    RunResult :=
  match processBody env outputRoot console name with
  | Except.ok r => r
  | Except.error e => RunResult.Error e

/-- The two spinner values that never denote a real console. -/
def sentinel_consoles : List String := ["Select Console", "No consoles found"]

/-- The user-supplied state read by `process_games`: the queue, the
API-key text field, and the console spinner text. -/
structure RunInput where
  queue : List String
  apiKeyText : String
  consoleText : String
deriving DecidableEq

/-- Outcome of one `process_games` invocation: one of the three
validation rejections (each with its own popup message), or a completed
run carrying the per-item results and the aggregate count. -/
inductive RunOutcome where
  | rejectedEmptyQueue
  | rejectedNoApiKey
  | rejectedNoConsole
  | completed (results : List RunResult) (total : Nat)
deriving DecidableEq

/-- Embedding of `process_games`: the three validation checks in source
order, then the strictly sequential per-item loop and the final
aggregate completion message over the full queue length. -/
def process_games (env : PipelineEnv) (outputRoot : String) (inp : RunInput) :
    RunOutcome :=
  if inp.queue = [] then RunOutcome.rejectedEmptyQueue
  else if pyStrip inp.apiKeyText = "" then RunOutcome.rejectedNoApiKey
  else if inp.consoleText ∈ sentinel_consoles then RunOutcome.rejectedNoConsole
  else
    RunOutcome.completed
      (inp.queue.map (process_single_game env outputRoot inp.consoleText))
      inp.queue.length

/-! ## Concrete instances used in the closed consequence checks -/

/-- A mixed grids response: 512x512, 1024x1024, 1024x768. -/
def gridsW : List IconCandidate :=
  [IconCandidate.mk "u1" 512 512, IconCandidate.mk "u2" 1024 1024,
   IconCandidate.mk "u3" 1024 768]

/-- An overlays-root listing with two qualifying subdirectories, one
directory without the frame asset, and one plain file. -/
def entriesW : List DirEntry :=
  [DirEntry.mk "snes" true true, DirEntry.mk "nes" true true,
   DirEntry.mk "roms" true false, DirEntry.mk "readme" false true]

/-- A dimension-correct stand-in for the abstract LANCZOS resampler. -/
def resampleW : Img → Nat → Nat → Img :=
  fun i wt ht => Img.mk wt ht i.px

/-- A concrete 300x300 bitmap. -/
def imgA : Img := Img.mk 300 300 (fun _ _ => (10, 20, 30, 255))

/-- A concrete 256x256 bitmap. -/
def imgB : Img := Img.mk 256 256 (fun _ _ => (1, 2, 3, 4))

/-- An environment in which every external step raises. -/
def envBoom : PipelineEnv :=
  PipelineEnv.mk (fun _ => Except.error "boom") (fun _ => Except.error "boom")
    (fun _ => Except.error "boom") (fun _ => Except.error "boom")
    (fun _ _ => Except.error "boom")

/-- An environment in which every external step succeeds trivially. -/
def envOk : PipelineEnv :=
  PipelineEnv.mk (fun _ => Except.ok []) (fun _ => Except.ok [])
    (fun _ => Except.ok none) (fun _ => Except.ok none)
    (fun _ _ => Except.ok ())

/-- A concrete run input with two queued games and valid settings. -/
def inpW : RunInput := RunInput.mk ["g1", "g2"] " key " "NES"

/-- A concrete run input with an empty queue. -/
def inpEmptyW : RunInput := RunInput.mk [] "k" "NES"

/-- An empty filesystem snapshot. -/
def fs0 : FS := FS.mk [] (fun _ => none)

/-! ## Queue theorems -/

/-- The queue after further operations stays a subsequence of the
accumulated accepted additions. -/
theorem foldl_queue_sublist (ops : List QueueOp) :
    ∀ q acc : List String, List.Sublist q acc →
      List.Sublist (ops.foldl queueStep q) (ops.foldl addStep acc) := by
  induction ops with
  | nil => intro q acc h; simpa using h
  | cons op rest ih =>
    intro q acc h
    cases op with
    | add raw =>
      apply ih
      simp only [queueStep, addStep, add_game]
      by_cases hname : pyStrip raw = ""
      · simpa [hname] using h
      · simpa [hname] using h.append (List.Sublist.refl [pyStrip raw])
    | remove n =>
      apply ih
      simp only [queueStep, addStep, remove_game]
      by_cases hm : n ∈ q
      · simpa [hm] using (List.erase_sublist n q).trans h
      · simpa [hm] using h
    | clear =>
      apply ih
      simp [queueStep, addStep, clear_queue]

/-- C9: for every sequence of add, remove and clear operations the
resulting queue is, in order, a subsequence of the accepted additions
since the last clear; an accepted add appends at the end, a removal
deletes at most one entry without reordering the rest, and clear
empties the queue. -/
theorem queue_order_invariant :
    (∀ ops : List QueueOp, List.Sublist (runQueue ops) (addedNames ops)) ∧
    (∀ (q : List String) (raw : String), pyStrip raw ≠ "" →
      queueStep q (QueueOp.add raw) = q ++ [pyStrip raw]) ∧
    (∀ (q : List String) (n : String),
      List.Sublist (queueStep q (QueueOp.remove n)) q) ∧
    (∀ q : List String, queueStep q QueueOp.clear = []) := by
  refine ⟨fun ops => foldl_queue_sublist ops [] [] (List.Sublist.refl []),
    ?_, ?_, ?_⟩
  · intro q raw h
    simp [queueStep, add_game, h]
  · intro q n
    simp only [queueStep, remove_game]
    by_cases hm : n ∈ q
    · simpa [hm] using List.erase_sublist n q
    · simp [hm]
  · intro q
    rfl

/-- Closed check of `queue_order_invariant` at concrete inputs. -/
theorem queue_order_invariant_check :
    List.Sublist
      (runQueue [QueueOp.add "a", QueueOp.add " b ", QueueOp.remove "a"])
      (addedNames [QueueOp.add "a", QueueOp.add " b ", QueueOp.remove "a"]) ∧
    (pyStrip " b " ≠ "" ∧
      queueStep ["a"] (QueueOp.add " b ") = ["a"] ++ [pyStrip " b "]) :=
  ⟨queue_order_invariant.1 [QueueOp.add "a", QueueOp.add " b ", QueueOp.remove "a"],
   by decide, queue_order_invariant.2.1 ["a"] " b " (by decide)⟩

/-- C10: removing an absent name leaves the queue unchanged (and cannot
fail); when a name occurs more than once, one removal deletes exactly
the first occurrence, and the outcome does not depend on which row
requested it. -/
theorem remove_game_first_occurrence :
    (∀ (q : List String) (n : String), n ∉ q → remove_game q n = q) ∧
    (∀ (a b : List String) (n : String), n ∉ a →
      remove_game (a ++ n :: b) n = a ++ b) ∧
    (∀ (q : List String) (i j : Nat) (n : String),
      remove_game_click q i n = remove_game_click q j n) := by
  refine ⟨?_, ?_, ?_⟩
  · intro q n h
    simp [remove_game, h]
  · intro a b n h
    have hm : n ∈ a ++ n :: b := by simp
    rw [remove_game, if_pos hm, List.erase_append_right _ h, List.erase_cons_head]
  · intro q i j n
    rfl

/-- Closed check of `remove_game_first_occurrence` at concrete inputs. -/
theorem remove_game_first_occurrence_check :
    (("y" ∉ ["x"]) ∧ remove_game ["x"] "y" = ["x"]) ∧
    (("a" ∉ ["x"]) ∧
      remove_game (["x"] ++ "a" :: ["a", "z"]) "a" = ["x"] ++ ["a", "z"]) :=
  ⟨⟨by decide, remove_game_first_occurrence.1 ["x"] "y" (by decide)⟩,
   ⟨by decide, remove_game_first_occurrence.2.1 ["x"] ["a", "z"] "a" (by decide)⟩⟩

/-! ## Client theorems -/

/-- C4: on a decoded response the icon client keeps exactly the
1024x1024 candidates, in the order the service returned them. -/
theorem get_game_icons_exact_filter (status : Nat) (grids : List IconCandidate)
    (hstatus : status < 400) :
    (∀ g, g ∈ get_game_icons (HttpOutcome.response status (some grids)) ↔
      (g ∈ grids ∧ g.width = 1024 ∧ g.height = 1024)) ∧
    List.Sublist (get_game_icons (HttpOutcome.response status (some grids))) grids ∧
    (∀ g, (get_game_icons (HttpOutcome.response status (some grids))).count g =
      if g.width = 1024 ∧ g.height = 1024 then grids.count g else 0) := by
  have hlt : ¬ 400 ≤ status := by omega
  simp only [get_game_icons, if_neg hlt]
  refine ⟨?_, List.filter_sublist grids, ?_⟩
  · intro g
    simp [List.mem_filter]
  · intro g
    by_cases hg : g.width = 1024 ∧ g.height = 1024
    · rw [if_pos hg, List.count_filter]
      simp [hg.1, hg.2]
    · rw [if_neg hg, List.count_eq_zero]
      intro hmem
      have := List.mem_filter.mp hmem
      simp only [Bool.and_eq_true, beq_iff_eq] at this
      exact hg ⟨this.2.1, this.2.2⟩

/-- Closed check of `get_game_icons_exact_filter` on a mixed response. -/
theorem get_game_icons_exact_filter_check :
    200 < 400 ∧
    ((∀ g, g ∈ get_game_icons (HttpOutcome.response 200 (some gridsW)) ↔
        (g ∈ gridsW ∧ g.width = 1024 ∧ g.height = 1024)) ∧
      List.Sublist (get_game_icons (HttpOutcome.response 200 (some gridsW))) gridsW ∧
      (∀ g, (get_game_icons (HttpOutcome.response 200 (some gridsW))).count g =
        if g.width = 1024 ∧ g.height = 1024 then gridsW.count g else 0)) :=
  ⟨by decide, get_game_icons_exact_filter 200 gridsW (by decide)⟩

/-- C5: both clients are total on every service outcome, and every
transport error, non-success status or undecodable body yields the
empty list, the same value a genuine zero-result response yields. -/
theorem clients_collapse_failures_to_empty :
    (search_game HttpOutcome.transportError = [] ∧
      get_game_icons HttpOutcome.transportError = []) ∧
    (∀ (status : Nat) (p : Option (List GameRec)), 400 ≤ status →
      search_game (HttpOutcome.response status p) = []) ∧
    (∀ (status : Nat) (p : Option (List IconCandidate)), 400 ≤ status →
      get_game_icons (HttpOutcome.response status p) = []) ∧
    (∀ status : Nat, search_game (HttpOutcome.response status none) = []) ∧
    (∀ status : Nat, get_game_icons (HttpOutcome.response status none) = []) ∧
    (search_game (HttpOutcome.response 200 (some [])) = [] ∧
      get_game_icons (HttpOutcome.response 200 (some [])) = []) := by
  refine ⟨⟨rfl, rfl⟩, ?_, ?_, ?_, ?_, ⟨rfl, rfl⟩⟩
  · intro s p h
    simp [search_game, h]
  · intro s p h
    simp [get_game_icons, h]
  · intro s
    by_cases h : 400 ≤ s <;> simp [search_game, h]
  · intro s
    by_cases h : 400 ≤ s <;> simp [get_game_icons, h]

/-- Closed check of `clients_collapse_failures_to_empty` at concrete
failing responses. -/
theorem clients_collapse_failures_check :
    (400 ≤ 503 ∧
      search_game (HttpOutcome.response 503 (some [GameRec.mk 1 "Halo"])) = []) ∧
    (400 ≤ 404 ∧
      get_game_icons (HttpOutcome.response 404 (some gridsW)) = []) :=
  ⟨⟨by decide,
    clients_collapse_failures_to_empty.2.1 503 (some [GameRec.mk 1 "Halo"]) (by decide)⟩,
   ⟨by decide,
    clients_collapse_failures_to_empty.2.2.1 404 (some gridsW) (by decide)⟩⟩

/-! ## Search request theorems -/

/-- C8 counterexample: the source interpolates the raw name, so the URL
differs from the path-segment-encoded form on a name containing a
space, and a name containing a slash does not end up as the final path
segment of the URL. -/
theorem search_url_not_segment_encoded :
    search_url "a b" ≠ search_url_spec "a b" ∧
    lastSegmentChars (search_url "a/b").data ≠ ("a/b").data := by
  constructor <;> decide

/-- A run of characters all satisfying the predicate passes through
`takeWhile` into the continuation. -/
theorem takeWhile_append_of_all {p : Char → Bool} (l₁ l₂ : List Char)
    (h : ∀ c ∈ l₁, p c = true) :
    (l₁ ++ l₂).takeWhile p = l₁ ++ l₂.takeWhile p := by
  induction l₁ with
  | nil => simp
  | cons c rest ih =>
    simp only [List.cons_append, List.takeWhile_cons, h c (by simp), if_true]
    rw [ih (fun d hd => h d (by simp [hd]))]

/-- C8 amended: the game name is concatenated into the autocomplete URL
verbatim with no percent-encoding; when it contains no slash it is the
final path segment; the stripped credential is the bearer token. -/
theorem search_request_shape (game_name apiKeyText : String)
    (h : '/' ∉ game_name.data) :
    search_url game_name = autocompleteBase ++ game_name ∧
    authorization_value apiKeyText = "Bearer " ++ pyStrip apiKeyText ∧
    lastSegmentChars (search_url game_name).data = game_name.data := by
  refine ⟨rfl, rfl, ?_⟩
  have hdata : (search_url game_name).data =
      autocompleteBase.data ++ game_name.data := by
    simp [search_url]
  rw [lastSegmentChars, hdata, List.reverse_append]
  rw [takeWhile_append_of_all]
  · have hbase :
        (autocompleteBase.data.reverse).takeWhile (fun c => c != '/') = [] := by
      decide
    rw [hbase, List.append_nil, List.reverse_reverse]
  · intro c hc
    have hmem : c ∈ game_name.data := List.mem_reverse.mp hc
    have hne : c ≠ '/' := fun he => h (he ▸ hmem)
    simpa using hne

/-- Closed check of `search_request_shape` at a concrete name and key. -/
theorem search_request_shape_check :
    ('/' ∉ ("Halo").data) ∧
    (search_url "Halo" = autocompleteBase ++ "Halo" ∧
      authorization_value " key " = "Bearer " ++ pyStrip " key " ∧
      lastSegmentChars (search_url "Halo").data = ("Halo").data) :=
  ⟨by decide, search_request_shape "Halo" " key " (by decide)⟩

/-! ## Console registry theorems -/

/-- C7: the console scan never yields an empty list; a missing or
unreadable root, or a root with no qualifying subdirectory, yields the
sentinel; otherwise the result is exactly the qualifying names, sorted
lexicographically. -/
theorem get_available_consoles_spec (entries : List DirEntry) :
    (∀ root : Option (List DirEntry), get_available_consoles root ≠ []) ∧
    get_available_consoles none = ["No consoles found"] ∧
    (overlay_subdirs entries = [] →
      get_available_consoles (some entries) = ["No consoles found"]) ∧
    (overlay_subdirs entries ≠ [] →
      List.Perm (get_available_consoles (some entries)) (overlay_subdirs entries) ∧
      List.Sorted (fun a b => a ≤ b) (get_available_consoles (some entries)) ∧
      (get_available_consoles (some entries)).length =
        (overlay_subdirs entries).length) := by
  refine ⟨?_, rfl, ?_, ?_⟩
  · intro root
    cases root with
    | none => simp [get_available_consoles]
    | some es =>
      simp only [get_available_consoles]
      by_cases he : (overlay_subdirs es).isEmpty
      · simp [he]
      · simp only [he, Bool.false_eq_true, if_false]
        intro hnil
        have hperm := List.mergeSort_perm (overlay_subdirs es)
          (fun a b => decide (a ≤ b))
        have hlen := hperm.length_eq
        rw [hnil] at hlen
        have : overlay_subdirs es = [] := List.eq_nil_of_length_eq_zero hlen.symm
        rw [this] at he
        simp at he
  · intro hempty
    simp [get_available_consoles, hempty]
  · intro hne
    have he : (overlay_subdirs entries).isEmpty = false := by
      simpa [List.isEmpty_iff] using hne
    simp only [get_available_consoles, he, Bool.false_eq_true, if_false]
    refine ⟨List.mergeSort_perm (overlay_subdirs entries) (fun a b => decide (a ≤ b)),
      ?_, (List.mergeSort_perm (overlay_subdirs entries) _).length_eq⟩
    exact List.sorted_mergeSort' (overlay_subdirs entries)

/-- Closed check of `get_available_consoles_spec` on a mixed listing. -/
theorem get_available_consoles_spec_check :
    overlay_subdirs entriesW ≠ [] ∧
    (List.Perm (get_available_consoles (some entriesW)) (overlay_subdirs entriesW) ∧
      List.Sorted (fun a b => a ≤ b) (get_available_consoles (some entriesW)) ∧
      (get_available_consoles (some entriesW)).length =
        (overlay_subdirs entriesW).length) :=
  ⟨by decide, (get_available_consoles_spec entriesW).2.2.2 (by decide)⟩

/-! ## Compositor theorems -/

/-- C3: the compositor builds a single-channel mask at the dimensions of
the base with the fixed literal radius 120 and values only 0 or 255
(255 away from the corners), replaces the alpha channel of the base
with that mask while keeping its color channels, conforms the frame to
the dimensions of the base exactly when they differ (the base is never
resized: the result keeps its dimensions), and returns the
alpha-composite of the frame over the masked base. -/
theorem apply_overlay_spec
    (resample : Img → Nat → Nat → Img) (ov base : Img)
    (hres : ∀ (i : Img) (wt ht : Nat),
      (resample i wt ht).w = wt ∧ (resample i wt ht).h = ht) :
    ∃ res, apply_overlay resample (some ov) base = some res ∧
      res.w = base.w ∧ res.h = base.h ∧
      (∀ x y, roundedMask 120 base.w base.h x y = 0 ∨
        roundedMask 120 base.w base.h x y = 255) ∧
      (∀ x y, 120 ≤ x → x + 120 ≤ base.w → y ≤ base.h →
        roundedMask 120 base.w base.h x y = 255) ∧
      (∀ x y, (putalpha base (roundedMask 120 base.w base.h)).px x y =
        ((base.px x y).1, (base.px x y).2.1, (base.px x y).2.2.1,
          roundedMask 120 base.w base.h x y)) ∧
      ((resample ov base.w base.h).w = base.w ∧
        (resample ov base.w base.h).h = base.h) ∧
      ((ov.w = base.w ∧ ov.h = base.h) →
        res = alpha_composite (putalpha base (roundedMask 120 base.w base.h)) ov) ∧
      (¬ (ov.w = base.w ∧ ov.h = base.h) →
        res = alpha_composite (putalpha base (roundedMask 120 base.w base.h))
          (resample ov base.w base.h)) := by
  have hmask0 : ∀ x y, roundedMask 120 base.w base.h x y = 0 ∨
      roundedMask 120 base.w base.h x y = 255 := by
    intro x y
    by_cases hin : inRoundedRect 120 base.w base.h x y
    · right
      simp [roundedMask, hin]
    · left
      simp [roundedMask, hin]
  have hmask255 : ∀ x y, 120 ≤ x → x + 120 ≤ base.w → y ≤ base.h →
      roundedMask 120 base.w base.h x y = 255 := by
    intro x y hx1 hx2 hy
    have c1 : ¬ x < 120 := by omega
    have c2 : ¬ base.w - 120 < x := by omega
    have c3 : x ≤ base.w := by omega
    simp [roundedMask, inRoundedRect, c1, c2, c3, hy]
  have hput : ∀ x y, (putalpha base (roundedMask 120 base.w base.h)).px x y =
      ((base.px x y).1, (base.px x y).2.1, (base.px x y).2.2.1,
        roundedMask 120 base.w base.h x y) := fun _ _ => rfl
  by_cases hsz : ov.w = base.w ∧ ov.h = base.h
  · refine ⟨alpha_composite (putalpha base (roundedMask 120 base.w base.h)) ov,
      ?_, rfl, rfl, hmask0, hmask255, hput, hres ov base.w base.h,
      fun _ => rfl, fun hn => absurd hsz hn⟩
    simp [apply_overlay, hsz]
  · refine ⟨alpha_composite (putalpha base (roundedMask 120 base.w base.h))
        (resample ov base.w base.h),
      ?_, rfl, rfl, hmask0, hmask255, hput, hres ov base.w base.h,
      fun hy => absurd hy hsz, fun _ => rfl⟩
    simp [apply_overlay, hsz]

/-- Closed check of `apply_overlay_spec` with a 256x256 frame over a
300x300 base. -/
theorem apply_overlay_spec_check :
    (∀ (i : Img) (wt ht : Nat),
      (resampleW i wt ht).w = wt ∧ (resampleW i wt ht).h = ht) ∧
    (∃ res, apply_overlay resampleW (some imgB) imgA = some res ∧
      res.w = imgA.w ∧ res.h = imgA.h ∧
      (∀ x y, roundedMask 120 imgA.w imgA.h x y = 0 ∨
        roundedMask 120 imgA.w imgA.h x y = 255) ∧
      (∀ x y, 120 ≤ x → x + 120 ≤ imgA.w → y ≤ imgA.h →
        roundedMask 120 imgA.w imgA.h x y = 255) ∧
      (∀ x y, (putalpha imgA (roundedMask 120 imgA.w imgA.h)).px x y =
        ((imgA.px x y).1, (imgA.px x y).2.1, (imgA.px x y).2.2.1,
          roundedMask 120 imgA.w imgA.h x y)) ∧
      ((resampleW imgB imgA.w imgA.h).w = imgA.w ∧
        (resampleW imgB imgA.w imgA.h).h = imgA.h) ∧
      ((imgB.w = imgA.w ∧ imgB.h = imgA.h) →
        res = alpha_composite (putalpha imgA (roundedMask 120 imgA.w imgA.h)) imgB) ∧
      (¬ (imgB.w = imgA.w ∧ imgB.h = imgA.h) →
        res = alpha_composite (putalpha imgA (roundedMask 120 imgA.w imgA.h))
          (resampleW imgB imgA.w imgA.h))) :=
  ⟨fun _ _ _ => ⟨rfl, rfl⟩,
   apply_overlay_spec resampleW imgB imgA (fun _ _ _ => ⟨rfl, rfl⟩)⟩

/-! ## Orchestrator theorems -/

/-- C1: once validation passes, the run produces one result per queue
item (an exception raised while processing one item is recorded as its
Error result and affects no other item), and ends with the aggregate
count over the whole queue. -/
theorem process_games_isolates_item_failures
    (env : PipelineEnv) (outputRoot : String) (inp : RunInput)
    (h1 : inp.queue ≠ []) (h2 : pyStrip inp.apiKeyText ≠ "")
    (h3 : inp.consoleText ∉ sentinel_consoles) :
    process_games env outputRoot inp =
      RunOutcome.completed
        (inp.queue.map (process_single_game env outputRoot inp.consoleText))
        inp.queue.length ∧
    (inp.queue.map (process_single_game env outputRoot inp.consoleText)).length =
      inp.queue.length ∧
    (∀ name e, processBody env outputRoot inp.consoleText name = Except.error e →
      process_single_game env outputRoot inp.consoleText name =
        RunResult.Error e) := by
  refine ⟨?_, List.length_map inp.queue _, ?_⟩
  · simp [process_games, h1, h2, h3]
  · intro name e he
    simp [process_single_game, he]

/-- Closed check of `process_games_isolates_item_failures` in an
environment in which the very first step of every item raises. -/
theorem process_games_isolates_item_failures_check :
    (inpW.queue ≠ [] ∧ pyStrip inpW.apiKeyText ≠ "" ∧
      inpW.consoleText ∉ sentinel_consoles) ∧
    (process_games envBoom "Output" inpW =
      RunOutcome.completed
        (inpW.queue.map (process_single_game envBoom "Output" inpW.consoleText))
        inpW.queue.length ∧
      (inpW.queue.map (process_single_game envBoom "Output" inpW.consoleText)).length =
        inpW.queue.length ∧
      (∀ name e,
        processBody envBoom "Output" inpW.consoleText name = Except.error e →
        process_single_game envBoom "Output" inpW.consoleText name =
          RunResult.Error e)) :=
  ⟨⟨by decide, by decide, by decide⟩,
   process_games_isolates_item_failures envBoom "Output" inpW
     (by decide) (by decide) (by decide)⟩

/-- C2: the run is rejected with the empty-queue message exactly when
the queue is empty, with the missing-key message exactly when the queue
is non-empty and the stripped credential is empty, and with the
console message exactly when both pass and the spinner text is one of
the two sentinels; a rejected run consults no external service (the
outcome is independent of the environment); otherwise processing
begins; the three rejection messages are pairwise distinct. -/
theorem process_games_validation (envA envB : PipelineEnv) (outputRoot : String)
    (inp : RunInput) :
    (process_games envA outputRoot inp = RunOutcome.rejectedEmptyQueue ↔
      inp.queue = []) ∧
    (process_games envA outputRoot inp = RunOutcome.rejectedNoApiKey ↔
      (inp.queue ≠ [] ∧ pyStrip inp.apiKeyText = "")) ∧
    (process_games envA outputRoot inp = RunOutcome.rejectedNoConsole ↔
      (inp.queue ≠ [] ∧ pyStrip inp.apiKeyText ≠ "" ∧
        inp.consoleText ∈ sentinel_consoles)) ∧
    ((inp.queue = [] ∨ pyStrip inp.apiKeyText = "" ∨
        inp.consoleText ∈ sentinel_consoles) →
      process_games envA outputRoot inp = process_games envB outputRoot inp) ∧
    ((inp.queue ≠ [] ∧ pyStrip inp.apiKeyText ≠ "" ∧
        inp.consoleText ∉ sentinel_consoles) →
      ∃ rs, process_games envA outputRoot inp =
        RunOutcome.completed rs inp.queue.length) ∧
    (RunOutcome.rejectedEmptyQueue ≠ RunOutcome.rejectedNoApiKey ∧
      RunOutcome.rejectedEmptyQueue ≠ RunOutcome.rejectedNoConsole ∧
      RunOutcome.rejectedNoApiKey ≠ RunOutcome.rejectedNoConsole) := by
  refine ⟨?_, ?_, ?_, ?_, ?_, by decide, by decide, by decide⟩
  · by_cases hq : inp.queue = [] <;> by_cases hk : pyStrip inp.apiKeyText = "" <;>
      by_cases hc : inp.consoleText ∈ sentinel_consoles <;>
      simp [process_games, hq, hk, hc]
  · by_cases hq : inp.queue = [] <;> by_cases hk : pyStrip inp.apiKeyText = "" <;>
      by_cases hc : inp.consoleText ∈ sentinel_consoles <;>
      simp [process_games, hq, hk, hc]
  · by_cases hq : inp.queue = [] <;> by_cases hk : pyStrip inp.apiKeyText = "" <;>
      by_cases hc : inp.consoleText ∈ sentinel_consoles <;>
      simp [process_games, hq, hk, hc]
  · intro h
    by_cases hq : inp.queue = []
    · simp [process_games, hq]
    · by_cases hk : pyStrip inp.apiKeyText = ""
      · simp [process_games, hq, hk]
      · have hc : inp.consoleText ∈ sentinel_consoles := by tauto
        simp [process_games, hq, hk, hc]
  · rintro ⟨hq, hk, hc⟩
    exact ⟨inp.queue.map (process_single_game envA outputRoot inp.consoleText),
      by simp [process_games, hq, hk, hc]⟩

/-- Closed check of `process_games_validation`: an empty queue is
rejected identically under two different environments. -/
theorem process_games_validation_check :
    (inpEmptyW.queue = [] ∨ pyStrip inpEmptyW.apiKeyText = "" ∨
      inpEmptyW.consoleText ∈ sentinel_consoles) ∧
    process_games envBoom "Output" inpEmptyW =
      process_games envOk "Output" inpEmptyW :=
  ⟨Or.inl rfl,
   (process_games_validation envBoom envOk "Output" inpEmptyW).2.2.2.1 (Or.inl rfl)⟩

/-! ## Output write theorems -/

/-- C6: the output path is the deterministic
root/console/name.png string; the save writes the image at exactly that
path and touches no other file; every ancestor of the per-console
directory is present afterwards; saving again for the same inputs
overwrites the same file, leaving the filesystem as if only the second
write had happened. -/
theorem save_output_spec (fs : FS) (outputRoot console name : String)
    (img1 img2 : Img) :
    output_path outputRoot console name =
      outputRoot ++ "/" ++ console ++ "/" ++ name ++ ".png" ∧
    (save_output fs outputRoot console name img1).files
      (output_path outputRoot console name) = some img1 ∧
    (∀ q, q ≠ output_path outputRoot console name →
      (save_output fs outputRoot console name img1).files q = fs.files q) ∧
    (∀ d, d ∈ pathPrefixes (outputRoot ++ "/" ++ console) →
      d ∈ (save_output fs outputRoot console name img1).dirs) ∧
    (∀ q, (save_output (save_output fs outputRoot console name img1)
        outputRoot console name img2).files q =
      (save_output fs outputRoot console name img2).files q) := by
  refine ⟨rfl, ?_, ?_, ?_, ?_⟩
  · simp [save_output, mkdir_parents]
  · intro q hq
    simp [save_output, mkdir_parents, hq]
  · intro d hd
    simp only [save_output, mkdir_parents, List.mem_append]
    by_cases hmem : d ∈ fs.dirs
    · exact Or.inl hmem
    · exact Or.inr (List.mem_filter.mpr ⟨hd, by simp [hmem]⟩)
  · intro q
    by_cases hq : q = output_path outputRoot console name <;>
      simp [save_output, mkdir_parents, hq]

/-- Closed check of `save_output_spec` at concrete paths and images. -/
theorem save_output_spec_check :
    output_path "Output" "NES" "Halo" =
      "Output" ++ "/" ++ "NES" ++ "/" ++ "Halo" ++ ".png" ∧
    (save_output fs0 "Output" "NES" "Halo" imgA).files
      (output_path "Output" "NES" "Halo") = some imgA ∧
    (∀ q, q ≠ output_path "Output" "NES" "Halo" →
      (save_output fs0 "Output" "NES" "Halo" imgA).files q = fs0.files q) ∧
    (∀ d, d ∈ pathPrefixes ("Output" ++ "/" ++ "NES") →
      d ∈ (save_output fs0 "Output" "NES" "Halo" imgA).dirs) ∧
    (∀ q, (save_output (save_output fs0 "Output" "NES" "Halo" imgA)
        "Output" "NES" "Halo" imgB).files q =
      (save_output fs0 "Output" "NES" "Halo" imgB).files q) :=
  save_output_spec fs0 "Output" "NES" "Halo" imgA imgB
